import Mathlib

/-!
Verification of the X-Ray trace-capture core (the `XRay` class):
data model, step append, terminal transitions and serialization.

Timestamps (`Date.now()`) and the random id component
(`Math.random().toString(36).substr(2, 9)`) are passed in as explicit
parameters, so every operation is a pure state transformer.
JavaScript string truthiness (empty string is falsy) is modelled by
`strTruthy` / `optStrTruthy`.
-/

namespace XRayLib

/-- Opaque structured payload data (`Record<string, any>` in the source):
a tagged union of null, booleans, numbers, strings, sequences and
string-keyed maps. -/
inductive Val where
  | null : Val
  | bool : Bool → Val
  | num : Int → Val
  | str : String → Val
  | arr : List Val → Val
  | obj : List (String × Val) → Val
deriving Repr

/-- `outcome` tag of a decision: `"pass" | "fail" | "select" | "filter" | "evaluate"`. -/
inductive Outcome where
  | pass
  | fail
  | select
  | filter
  | evaluate
deriving Repr, DecidableEq

/-- Execution status: `"completed" | "failed" | "in_progress"`. -/
inductive Status where
  | completed
  | failed
  | in_progress
deriving Repr, DecidableEq

/-- `XRayDecision`: a tagged outcome with a reason and optional confidence. -/
structure XRayDecision where
  outcome : Outcome
  reason : String
  confidence : Option ℚ
deriving Repr

/-- `XRayEvaluation`: a per-item pass/fail judgment. -/
structure XRayEvaluation where
  id : Option String
  passed : Bool
  reason : String
  metadata : Option Val
deriving Repr

/-- `XRayStep`: one recorded stage of an execution. -/
structure XRayStep where
  index : Nat
  step : String
  timestamp : Nat
  input : Val
  output : Val
  reasoning : String
  decision : Option XRayDecision
  metadata : Option Val
deriving Repr

/-- `ExecutionSummary`: derived closing-time aggregate. -/
structure ExecutionSummary where
  totalSteps : Nat
  finalOutcome : Option String
deriving Repr, DecidableEq

/-- `XRayExecution`: the full state owned by one `XRay` builder. -/
structure XRayExecution where
  executionId : String
  name : String
  status : Status
  steps : List XRayStep
  createdAt : Nat
  completedAt : Option Nat
  duration : Option Int
  summary : Option ExecutionSummary
deriving Repr

/-- JavaScript truthiness of a string: the empty string is falsy. -/
def strTruthy (s : String) : Bool := s ≠ ""

/-- JavaScript truthiness of `string | undefined`. -/
def optStrTruthy : Option String → Bool
  | none => false
  | some s => strTruthy s

/-- The generated identifier
`` exec_${Date.now()}_${Math.random().toString(36).substr(2, 9)} ``,
with the clock value and the random component passed in explicitly. -/
def generateId (now : Nat) (rand : String) : String :=
  "exec_" ++ toString now ++ "_" ++ rand

/-- The `XRay` constructor: `executionId || generateId` (truthiness test),
status `in_progress`, empty steps, `createdAt = Date.now()`. -/
def construct (name : String) (executionId : Option String) (now : Nat)
    (rand : String) : XRayExecution :=
  { executionId :=
      match executionId with
      | some s => if strTruthy s then s else generateId now rand
      | none => generateId now rand
    name := name
    status := Status.in_progress
    steps := []
    createdAt := now
    completedAt := none
    duration := none
    summary := none }

/-- `recordStep`: build a step with `index = steps.length + 1` and
`timestamp = Date.now()`, and push it onto `steps`. -/
def recordStep (e : XRayExecution) (now : Nat) (stepName : String)
    (input output : Val) (reasoning : String)
    (decision : Option XRayDecision) (metadata : Option Val) : XRayExecution :=
  { e with
    steps := e.steps ++
      [{ index := e.steps.length + 1
         step := stepName
         timestamp := now
         input := input
         output := output
         reasoning := reasoning
         decision := decision
         metadata := metadata }] }

/-- Encoding of an `XRayEvaluation` object as an opaque payload value
(optional fields are present only when defined). -/
def XRayEvaluation.toVal (ev : XRayEvaluation) : Val :=
  Val.obj
    ((match ev.id with
      | some i => [("id", Val.str i)]
      | none => []) ++
     [("passed", Val.bool ev.passed), ("reason", Val.str ev.reason)] ++
     (match ev.metadata with
      | some m => [("metadata", m)]
      | none => []))

/-- The named-parameter record of `recordEvaluationStep`. -/
structure EvalStepParams where
  step : String
  input : Val
  evaluations : List XRayEvaluation
  output : Val
  reasoning : String
  confidence : Option ℚ
deriving Repr

/-- `recordEvaluationStep`: delegates to `recordStep` with a fixed
`evaluate` decision and the evaluations wrapped into `metadata`. -/
def recordEvaluationStep (e : XRayExecution) (now : Nat)
    (params : EvalStepParams) : XRayExecution :=
  recordStep e now params.step params.input params.output params.reasoning
    (some { outcome := Outcome.evaluate
            reason := "Evaluation completed"
            confidence := params.confidence })
    (some (Val.obj [("evaluations",
      Val.arr (params.evaluations.map XRayEvaluation.toVal))]))

/-- `markComplete`: set status, completion time, duration and summary. -/
def markComplete (e : XRayExecution) (now : Nat)
    (finalOutcome : Option String) : XRayExecution :=
  { e with
    status := Status.completed
    completedAt := some now
    duration := some ((now : Int) - (e.createdAt : Int))
    summary := some { totalSteps := e.steps.length, finalOutcome := finalOutcome } }

/-- `markFailed`: set status, completion time and duration; when `error`
is truthy and at least one step exists, append
`" [ERROR: " ++ error ++ "]"` to the last step reasoning. -/
def markFailed (e : XRayExecution) (now : Nat)
    (error : Option String) : XRayExecution :=
  let base : XRayExecution :=
    { e with
      status := Status.failed
      completedAt := some now
      duration := some ((now : Int) - (e.createdAt : Int)) }
  if optStrTruthy error && decide (0 < base.steps.length) then
    match error, base.steps.getLast? with
    | some err, some lastStep =>
        { base with
          steps := base.steps.dropLast ++
            [{ lastStep with
               reasoning := lastStep.reasoning ++ " [ERROR: " ++ err ++ "]" }] }
    | _, _ => base
  else base

/-- `serialize`: return the execution state itself. -/
def serialize (e : XRayExecution) : XRayExecution := e

/-- `getExecution`: identical to `serialize` in the source. -/
def getExecution (e : XRayExecution) : XRayExecution := e

/-- Argument tuple of one `recordStep` call. -/
structure RecArgs where
  now : Nat
  stepName : String
  input : Val
  output : Val
  reasoning : String
  decision : Option XRayDecision
  metadata : Option Val
deriving Repr

/-- Apply one `recordStep` call given by its argument tuple. -/
def applyRec (e : XRayExecution) (a : RecArgs) : XRayExecution :=
  recordStep e a.now a.stepName a.input a.output a.reasoning a.decision a.metadata

/-- Run a sequence of `recordStep` calls. -/
def runRecs (e : XRayExecution) (calls : List RecArgs) : XRayExecution :=
  calls.foldl applyRec e

/-- One builder operation (any public mutator of the class). -/
inductive Op where
  | record (a : RecArgs)
  | recordEval (now : Nat) (params : EvalStepParams)
  | complete (now : Nat) (finalOutcome : Option String)
  | failed (now : Nat) (error : Option String)
deriving Repr

/-- Apply one builder operation. -/
def applyOp (e : XRayExecution) : Op → XRayExecution
  | Op.record a => applyRec e a
  | Op.recordEval now params => recordEvaluationStep e now params
  | Op.complete now finalOutcome => markComplete e now finalOutcome
  | Op.failed now error => markFailed e now error

/-- Run a sequence of builder operations. -/
def run (e : XRayExecution) (ops : List Op) : XRayExecution :=
  ops.foldl applyOp e

/-! ## Helper lemmas -/

theorem markFailed_status (e : XRayExecution) (now : Nat) (error : Option String) :
    (markFailed e now error).status = Status.failed := by
  unfold markFailed
  simp only []
  split
  · split <;> rfl
  · rfl

theorem markFailed_completedAt (e : XRayExecution) (now : Nat) (error : Option String) :
    (markFailed e now error).completedAt = some now := by
  unfold markFailed
  simp only []
  split
  · split <;> rfl
  · rfl

theorem markFailed_duration (e : XRayExecution) (now : Nat) (error : Option String) :
    (markFailed e now error).duration = some ((now : Int) - (e.createdAt : Int)) := by
  unfold markFailed
  simp only []
  split
  · split <;> rfl
  · rfl

theorem markFailed_summary (e : XRayExecution) (now : Nat) (error : Option String) :
    (markFailed e now error).summary = e.summary := by
  unfold markFailed
  simp only []
  split
  · split <;> rfl
  · rfl

theorem markFailed_steps_of_not_truthy (e : XRayExecution) (now : Nat)
    (error : Option String) (h : optStrTruthy error = false) :
    (markFailed e now error).steps = e.steps := by
  unfold markFailed
  simp [h]

theorem markFailed_steps_of_nil (e : XRayExecution) (now : Nat)
    (error : Option String) (h : e.steps = []) :
    (markFailed e now error).steps = e.steps := by
  unfold markFailed
  simp [h]

theorem markFailed_steps_annotated (e : XRayExecution) (now : Nat) (err : String)
    (hne : err ≠ "") (lastStep : XRayStep) (hl : e.steps.getLast? = some lastStep) :
    (markFailed e now (some err)).steps =
      e.steps.dropLast ++
        [{ lastStep with
           reasoning := lastStep.reasoning ++ " [ERROR: " ++ err ++ "]" }] := by
  have hnil : e.steps ≠ [] := by
    intro hs
    rw [hs] at hl
    simp at hl
  have hlen : 0 < e.steps.length := List.length_pos.mpr hnil
  have ht : optStrTruthy (some err) = true := by
    simp [optStrTruthy, strTruthy, hne]
  unfold markFailed
  simp only []
  simp [ht, hlen, hl]

/-- The indexing invariant of the `steps` sequence: 1-based, dense, no gaps. -/
def wellIndexed (steps : List XRayStep) : Prop :=
  ∀ i : Fin steps.length, (steps.get i).index = (i : Nat) + 1

theorem wellIndexed_nil : wellIndexed [] := by
  intro i
  exact absurd i.isLt (by simp)

theorem wellIndexed_concat {steps : List XRayStep} (hw : wellIndexed steps)
    {s : XRayStep} (hs : s.index = steps.length + 1) :
    wellIndexed (steps ++ [s]) := by
  intro i
  have hi : (i : Nat) < steps.length + 1 := by
    have := i.isLt
    simpa using this
  rw [List.get_eq_getElem]
  rcases Nat.lt_or_ge (i : Nat) steps.length with h | h
  · rw [List.getElem_append_left h]
    have := hw ⟨(i : Nat), h⟩
    simpa using this
  · have heq : (i : Nat) = steps.length := Nat.le_antisymm (Nat.lt_succ_iff.mp hi) h
    rw [List.getElem_concat_length _ _ _ heq]
    rw [heq]
    exact hs

theorem applyRec_steps (e : XRayExecution) (a : RecArgs) :
    (applyRec e a).steps = e.steps ++
      [{ index := e.steps.length + 1
         step := a.stepName
         timestamp := a.now
         input := a.input
         output := a.output
         reasoning := a.reasoning
         decision := a.decision
         metadata := a.metadata }] := rfl

theorem runRecs_invariant (calls : List RecArgs) :
    ∀ e : XRayExecution, wellIndexed e.steps →
      (runRecs e calls).steps.length = e.steps.length + calls.length ∧
      wellIndexed (runRecs e calls).steps := by
  induction calls with
  | nil =>
      intro e he
      exact ⟨rfl, he⟩
  | cons a rest ih =>
      intro e he
      have hw : wellIndexed (applyRec e a).steps := by
        rw [applyRec_steps]
        exact wellIndexed_concat he rfl
      have hrun : runRecs e (a :: rest) = runRecs (applyRec e a) rest := rfl
      have hlen : (applyRec e a).steps.length = e.steps.length + 1 := by
        rw [applyRec_steps]
        simp
      obtain ⟨h1, h2⟩ := ih (applyRec e a) hw
      refine ⟨?_, by rw [hrun]; exact h2⟩
      have hl2 : (runRecs e (a :: rest)).steps.length =
          (applyRec e a).steps.length + rest.length := by
        rw [hrun]
        exact h1
      rw [hl2, hlen, List.length_cons]
      omega

/-! ## Claim theorems -/

/-- Claim C1: every sequence of N recordStep calls on a freshly constructed
execution yields a steps sequence of length N whose i-th element (0-based)
carries index i + 1: indices are 1-based, strictly increasing, dense, each
assigned as current step count + 1 at append time, and every appended step
becomes the last element of the sequence. -/
theorem c1_recordStep_indexing :
    (∀ (name : String) (eid : Option String) (now : Nat) (rand : String)
        (calls : List RecArgs),
      (runRecs (construct name eid now rand) calls).steps.length = calls.length ∧
      wellIndexed (runRecs (construct name eid now rand) calls).steps) ∧
    (∀ (e : XRayExecution) (a : RecArgs),
      (applyRec e a).steps = e.steps ++
        [{ index := e.steps.length + 1
           step := a.stepName
           timestamp := a.now
           input := a.input
           output := a.output
           reasoning := a.reasoning
           decision := a.decision
           metadata := a.metadata }]) := by
  constructor
  · intro name eid now rand calls
    have h := runRecs_invariant calls (construct name eid now rand) wellIndexed_nil
    simpa [construct] using h
  · intro e a
    exact applyRec_steps e a

/-- Claim C3: markComplete sets status to completed, completedAt to the
current time, duration to completedAt - createdAt, and summary to
totalSteps = the step count at closing time together with the given
finalOutcome (absent when omitted); the steps sequence is untouched. -/
theorem c3_markComplete (e : XRayExecution) (now : Nat) (finalOutcome : Option String) :
    (markComplete e now finalOutcome).status = Status.completed ∧
    (markComplete e now finalOutcome).completedAt = some now ∧
    (markComplete e now finalOutcome).duration =
      some ((now : Int) - (e.createdAt : Int)) ∧
    (markComplete e now finalOutcome).summary =
      some { totalSteps := e.steps.length, finalOutcome := finalOutcome } ∧
    (markComplete e now finalOutcome).steps = e.steps :=
  ⟨rfl, rfl, rfl, rfl, rfl⟩

/-- Claim C6: recordEvaluationStep is definitionally the recordStep call
with decision = evaluate / reason "Evaluation completed" / the given
confidence, and metadata carrying exactly the given evaluations; it
introduces no new state. -/
theorem c6_recordEvaluationStep (e : XRayExecution) (now : Nat)
    (params : EvalStepParams) :
    recordEvaluationStep e now params =
      recordStep e now params.step params.input params.output params.reasoning
        (some { outcome := Outcome.evaluate
                reason := "Evaluation completed"
                confidence := params.confidence })
        (some (Val.obj [("evaluations",
          Val.arr (params.evaluations.map XRayEvaluation.toVal))])) := rfl

/-- Claim C8: serialize is a side-effect-free deterministic projection: it
returns the execution state itself, hence two calls on the same state agree
and every field of the snapshot equals the corresponding field of the
in-memory state. -/
theorem c8_serialize (e : XRayExecution) :
    serialize e = e ∧
    serialize e = serialize e ∧
    (serialize e).executionId = e.executionId ∧
    (serialize e).name = e.name ∧
    (serialize e).status = e.status ∧
    (serialize e).steps = e.steps ∧
    (serialize e).createdAt = e.createdAt ∧
    (serialize e).completedAt = e.completedAt ∧
    (serialize e).duration = e.duration ∧
    (serialize e).summary = e.summary :=
  ⟨rfl, rfl, rfl, rfl, rfl, rfl, rfl, rfl, rfl, rfl⟩

/-- Claim C10: a caller-supplied empty-string executionId is discarded
(the constructor tests truthiness, not presence) and a fresh identifier is
generated instead, so the resulting executionId is never the empty string. -/
theorem c10_empty_executionId (name : String) (now : Nat) (rand : String) :
    (construct name (some "") now rand).executionId = generateId now rand ∧
    (construct name (some "") now rand).executionId ≠ "" := by
  constructor
  · rfl
  · show generateId now rand ≠ ""
    intro h
    have hlen := congrArg String.length h
    simp [generateId, String.length_append] at hlen
    exact absurd hlen.1.1.1 (by decide)

/-- The invariant relating status to the closing fields over all reachable
states: all of completedAt, duration, summary are absent while in progress;
completedAt and duration are present once the status is terminal; summary
is present whenever the status is completed. -/
def closedFieldsInv (e : XRayExecution) : Prop :=
  (e.status = Status.in_progress →
    e.completedAt = none ∧ e.duration = none ∧ e.summary = none) ∧
  (e.status ≠ Status.in_progress →
    e.completedAt.isSome = true ∧ e.duration.isSome = true) ∧
  (e.status = Status.completed → e.summary.isSome = true)

theorem closedFieldsInv_applyOp {e : XRayExecution} (he : closedFieldsInv e)
    (op : Op) : closedFieldsInv (applyOp e op) := by
  cases op with
  | record a => exact he
  | recordEval now params => exact he
  | complete now o =>
      exact ⟨fun h => Status.noConfusion h, fun _ => ⟨rfl, rfl⟩, fun _ => rfl⟩
  | failed now err =>
      simp only [applyOp]
      refine ⟨?_, ?_, ?_⟩
      · intro h
        rw [markFailed_status] at h
        exact Status.noConfusion h
      · intro _
        constructor
        · rw [markFailed_completedAt]
          rfl
        · rw [markFailed_duration]
          rfl
      · intro h
        rw [markFailed_status] at h
        exact Status.noConfusion h

theorem closedFieldsInv_run (e : XRayExecution) (he : closedFieldsInv e)
    (ops : List Op) : closedFieldsInv (run e ops) := by
  induction ops generalizing e with
  | nil => exact he
  | cons op rest ih => exact ih (applyOp e op) (closedFieldsInv_applyOp he op)

/-- Claim C2 counterexample: markFailed with the provided error string ""
on an execution with one step does not append the suffix " [ERROR: ]" to
the last step reasoning (the code tests the error for truthiness, and the
empty string is falsy), so the reasoning stays "why". -/
theorem c2_counterexample :
    (markFailed
        (recordStep (construct "n" none 0 "r") 1 "s" Val.null Val.null "why"
          none none)
        2 (some "")).steps.map XRayStep.reasoning ≠ ["why [ERROR: ]"] ∧
    (markFailed
        (recordStep (construct "n" none 0 "r") 1 "s" Val.null Val.null "why"
          none none)
        2 (some "")).steps.map XRayStep.reasoning = ["why"] := by
  constructor
  · decide
  · decide

/-- Claim C2 (amended): markFailed(error) sets status to failed,
completedAt to the current time, duration to completedAt - createdAt, and
never touches summary; if error is provided and non-empty and at least one
step exists, exactly the last step reasoning is mutated by appending
" [ERROR: " ++ error ++ "]" and all other steps are untouched; if error is
absent or the empty string, or no steps exist, the error is dropped
silently and the steps are unchanged. -/
theorem c2_markFailed (e : XRayExecution) (now : Nat) (error : Option String) :
    (markFailed e now error).status = Status.failed ∧
    (markFailed e now error).completedAt = some now ∧
    (markFailed e now error).duration = some ((now : Int) - (e.createdAt : Int)) ∧
    (markFailed e now error).summary = e.summary ∧
    (∀ err, error = some err → err ≠ "" →
      ∀ lastStep, e.steps.getLast? = some lastStep →
        (markFailed e now error).steps =
          e.steps.dropLast ++
            [{ lastStep with
               reasoning := lastStep.reasoning ++ " [ERROR: " ++ err ++ "]" }]) ∧
    ((error = none ∨ error = some "" ∨ e.steps = []) →
      (markFailed e now error).steps = e.steps) := by
  refine ⟨markFailed_status e now error, markFailed_completedAt e now error,
    markFailed_duration e now error, markFailed_summary e now error, ?_, ?_⟩
  · intro err herr hne lastStep hl
    rw [herr]
    exact markFailed_steps_annotated e now err hne lastStep hl
  · intro hcase
    rcases hcase with h | h | h
    · rw [h]
      exact markFailed_steps_of_not_truthy e now none rfl
    · rw [h]
      exact markFailed_steps_of_not_truthy e now (some "") rfl
    · exact markFailed_steps_of_nil e now error h

/-- Claim C2 witness: on a one-step execution with reasoning "why",
markFailed with error "boom" rewrites the steps to the annotated form. -/
theorem c2_markFailed_witness :
    (markFailed
        (recordStep (construct "n" none 0 "r") 1 "s" Val.null Val.null "why"
          none none)
        2 (some "boom")).steps =
      (recordStep (construct "n" none 0 "r") 1 "s" Val.null Val.null "why"
          none none).steps.dropLast ++
        [{ index := 1
           step := "s"
           timestamp := 1
           input := Val.null
           output := Val.null
           reasoning := "why" ++ " [ERROR: " ++ "boom" ++ "]"
           decision := none
           metadata := none }] :=
  (c2_markFailed
      (recordStep (construct "n" none 0 "r") 1 "s" Val.null Val.null "why"
        none none)
      2 (some "boom")).2.2.2.2.1 "boom" rfl (by decide) _ rfl

/-- Claim C4 counterexample: a freshly constructed execution closed with
markFailed has a terminal status yet no summary, so summary is not always
defined once the status leaves in progress. -/
theorem c4_counterexample :
    (run (construct "n" none 0 "r") [Op.failed 1 none]).status ≠
      Status.in_progress ∧
    (run (construct "n" none 0 "r") [Op.failed 1 none]).summary = none := by
  constructor
  · decide
  · rfl

/-- Claim C4 (amended): in every execution reachable by builder operations
from construction, completedAt, duration and summary are all undefined
while the status is in progress; once the status is terminal, completedAt
and duration are always defined, and summary is defined whenever the
status is completed (after markFailed alone it may stay absent). -/
theorem c4_closing_fields (name : String) (eid : Option String) (now : Nat)
    (rand : String) (ops : List Op) :
    closedFieldsInv (run (construct name eid now rand) ops) :=
  closedFieldsInv_run (construct name eid now rand)
    ⟨fun _ => ⟨rfl, rfl, rfl⟩, fun h => absurd rfl h,
     fun h => Status.noConfusion h⟩ ops

/-- Claim C4 witness: after a markComplete operation the summary is
present, instantiating the invariant on a concrete run. -/
theorem c4_closing_fields_witness :
    ((run (construct "n" none 0 "r")
        [Op.complete 1 (some "done")]).summary).isSome = true :=
  (c4_closing_fields "n" none 0 "r" [Op.complete 1 (some "done")]).2.2 rfl

/-- Claim C5: no builder operation guards on status: on an execution in a
terminal state, recordStep still appends a step with index
steps.length + 1 and leaves the status unchanged, markComplete still sets
completed status, completion fields and summary, and markFailed still sets
failed status and completion fields, silently overwriting previous values. -/
theorem c5_no_status_guard (e : XRayExecution)
    (h : e.status ≠ Status.in_progress) (a : RecArgs) (now1 now2 : Nat)
    (o err : Option String) :
    (applyRec e a).status = e.status ∧
    (applyRec e a).steps = e.steps ++
      [{ index := e.steps.length + 1
         step := a.stepName
         timestamp := a.now
         input := a.input
         output := a.output
         reasoning := a.reasoning
         decision := a.decision
         metadata := a.metadata }] ∧
    (markComplete e now1 o).status = Status.completed ∧
    (markComplete e now1 o).completedAt = some now1 ∧
    (markComplete e now1 o).duration = some ((now1 : Int) - (e.createdAt : Int)) ∧
    (markComplete e now1 o).summary =
      some { totalSteps := e.steps.length, finalOutcome := o } ∧
    (markFailed e now2 err).status = Status.failed ∧
    (markFailed e now2 err).completedAt = some now2 ∧
    (markFailed e now2 err).duration = some ((now2 : Int) - (e.createdAt : Int)) :=
  ⟨rfl, rfl, rfl, rfl, rfl, rfl, markFailed_status e now2 err,
   markFailed_completedAt e now2 err, markFailed_duration e now2 err⟩

/-- Claim C5 witness: on a concrete completed execution, a later recordStep
leaves the status completed, and a later markFailed flips it to failed. -/
theorem c5_no_status_guard_witness :
    (applyRec (markComplete (construct "n" none 0 "r") 1 (some "ok"))
        { now := 2, stepName := "late", input := Val.null, output := Val.null,
          reasoning := "r2", decision := none, metadata := none }).status =
      Status.completed ∧
    (markFailed (markComplete (construct "n" none 0 "r") 1 (some "ok"))
        3 none).status = Status.failed :=
  ⟨((c5_no_status_guard (markComplete (construct "n" none 0 "r") 1 (some "ok"))
      (by decide)
      { now := 2, stepName := "late", input := Val.null, output := Val.null,
        reasoning := "r2", decision := none, metadata := none }
      9 3 (some "x") none).1).trans rfl,
   (c5_no_status_guard (markComplete (construct "n" none 0 "r") 1 (some "ok"))
      (by decide)
      { now := 2, stepName := "late", input := Val.null, output := Val.null,
        reasoning := "r2", decision := none, metadata := none }
      9 3 (some "x") none).2.2.2.2.2.2.1⟩

/-- Claim C7: construction always yields an execution with status in
progress, empty steps, createdAt equal to the current time and the given
name; when executionId is omitted the identifier is the generated one,
namely the fixed prefix "exec_" followed by the clock component and the
random component. -/
theorem c7_construct (name : String) (eid : Option String) (now : Nat)
    (rand : String) :
    (construct name eid now rand).status = Status.in_progress ∧
    (construct name eid now rand).steps = [] ∧
    (construct name eid now rand).createdAt = now ∧
    (construct name eid now rand).name = name ∧
    (eid = none →
      (construct name eid now rand).executionId = generateId now rand ∧
      ∃ rest, (construct name eid now rand).executionId = "exec_" ++ rest) := by
  refine ⟨rfl, rfl, rfl, rfl, ?_⟩
  intro h
  rw [h]
  refine ⟨rfl, toString now ++ "_" ++ rand, ?_⟩
  show "exec_" ++ toString now ++ "_" ++ rand = "exec_" ++ (toString now ++ "_" ++ rand)
  simp [String.append_assoc]

/-- Claim C7 witness: a concrete construction with executionId omitted. -/
theorem c7_construct_witness :
    (construct "Demo" none 5 "abc").status = Status.in_progress ∧
    (construct "Demo" none 5 "abc").executionId = generateId 5 "abc" :=
  ⟨(c7_construct "Demo" none 5 "abc").1,
   ((c7_construct "Demo" none 5 "abc").2.2.2.2 rfl).1⟩

/-- Claim C9: markFailed never assigns or clears summary, so after an
earlier markComplete a subsequent markFailed leaves a failed execution
still carrying the stale summary set by markComplete. -/
theorem c9_markFailed_frames_summary (e : XRayExecution) (now1 now2 : Nat)
    (o err : Option String) :
    (markFailed e now2 err).summary = e.summary ∧
    (markFailed (markComplete e now1 o) now2 err).status = Status.failed ∧
    (markFailed (markComplete e now1 o) now2 err).summary =
      some { totalSteps := e.steps.length, finalOutcome := o } := by
  refine ⟨markFailed_summary e now2 err,
    markFailed_status (markComplete e now1 o) now2 err, ?_⟩
  rw [markFailed_summary]
  rfl

end XRayLib
